import Mathlib

/-!
Verification development for the txob transactional outbox event processor.

The embedding translates the per-event transactional state machine
`processEvent` (src/unnamed/part_003, the `EventProcessor` generation of
src/processor.ts), the Postgres adapter transaction wrapper
(src/src/pg/client.ts), and, where the current repository head is only
represented by its declarations and tests, a definition modelled from the
specification (marked as such in its doc comment).

Modelling conventions:
- JavaScript `Date` instants are natural numbers; every `getDate()` call made
  during one attempt is the single instant `now` handed to the attempt.
- JavaScript records (`Record<string, T>`) are association lists with
  first-match lookup and in-place overwrite; object keys are unique in
  JavaScript, which theorems needing it state as a nodup hypothesis.
- `backoff_until` is `Option Nat`; the source writes `null` or leaves the
  column unset, and no claim distinguishes the two.
- `Promise.allSettled` over the handler tasks (bounded by `pLimit`) is a left
  fold: each task reads and writes only its own `handler_results` key, and the
  shared `errored` flag is only ever raised, so any interleaving computes the
  fold result.
- The abort signal is a trace `Nat → Bool`; the source reads
  `signal?.aborted` exactly once (before `client.transaction` is opened), and
  the embedding samples the trace at that single read point, index 0.
- External effects (the lock-skip fetch result, each handler outcome, whether
  the max-errors hook throws) are inputs to the attempt.
-/

namespace Txob

/-- Per-handler bookkeeping, from `TxOBEventHandlerResult` in
src/unnamed/part_003: optional success instant, optional poisoned instant, and
an optional list of (error message, timestamp) entries. -/
structure HandlerResult where
  processed_at : Option Nat := none
  unprocessable_at : Option Nat := none
  errors : Option (List (String × Nat)) := none
deriving Repr, DecidableEq

/-- A JavaScript record from handler name to `HandlerResult`. -/
abbrev ResultMap := List (String × HandlerResult)

/-- The persistent event row, from `TxOBEvent` in src/unnamed/part_003.
The opaque `data` payload is an opaque string. -/
structure Event where
  id : String
  timestamp : Nat
  type_ : String
  data : String
  correlation_id : String
  handler_results : ResultMap
  errors : Nat
  backoff_until : Option Nat
  processed_at : Option Nat
deriving Repr, DecidableEq

/-- First-match lookup in a JavaScript record (`m[k]`). -/
def recordGet {α : Type} (m : List (String × α)) (k : String) : Option α :=
  match m with
  | [] => none
  | (k', v) :: rest => if k' = k then some v else recordGet rest k

/-- Key assignment in a JavaScript record (`m[k] = v`): overwrite the first
binding of `k`, or append a new binding. -/
def recordSet {α : Type} (m : List (String × α)) (k : String) (v : α) :
    List (String × α) :=
  match m with
  | [] => [(k, v)]
  | (k', v') :: rest =>
      if k' = k then (k, v) :: rest else (k', v') :: recordSet rest k v

/-- The behaviour of one handler invocation during the attempt: resolve, or
reject with an error whose message is `msg`.  A rejection is classified by the
source with `instanceof ErrorUnprocessableEventHandler` (the `unprocessable`
flag); a rejection may additionally carry the `backoffUntil` hint of a
`TxOBError` (src/src/error.ts), which `processEvent` in src/unnamed/part_003
never reads. -/
inductive HandlerOutcome where
  | success
  | failure (msg : String) (unprocessable : Bool) (backoffUntil : Option Nat)
deriving Repr, DecidableEq

/-- The handler map: event type to record of named handler behaviours. -/
abbrev HandlerMap := List (String × List (String × HandlerOutcome))

/-- State threaded through the handler dispatch loop of `processEvent`:
the mutable `lockedEvent.handler_results`, the `errored` flag, and the set of
handlers whose function was actually invoked this attempt. -/
structure DispatchState where
  results : ResultMap
  errored : Bool
  invoked : List String
deriving Repr, DecidableEq

/-- One handler task of the dispatch loop (src/unnamed/part_003 lines
330-400): skip when `processed_at` or `unprocessable_at` is already set,
otherwise initialise the `errors` list, invoke the handler, and record the
outcome. -/
def runHandler (now : Nat) (st : DispatchState) (h : String × HandlerOutcome) :
    DispatchState :=
  let hr := (recordGet st.results h.1).getD {}
  if hr.processed_at.isSome then st
  else if hr.unprocessable_at.isSome then st
  else
    let hr1 : HandlerResult := { hr with errors := some (hr.errors.getD []) }
    match h.2 with
    | .success =>
        { results := recordSet st.results h.1 { hr1 with processed_at := some now },
          errored := st.errored,
          invoked := st.invoked ++ [h.1] }
    | .failure msg true _ =>
        { results := recordSet st.results h.1
            { hr1 with
                unprocessable_at := some now,
                errors := some (hr1.errors.getD [] ++ [(msg, now)]) },
          errored := true,
          invoked := st.invoked ++ [h.1] }
    | .failure msg false _ =>
        { results := recordSet st.results h.1
            { hr1 with errors := some (hr1.errors.getD [] ++ [(msg, now)]) },
          errored := true,
          invoked := st.invoked ++ [h.1] }

/-- The whole dispatch loop (`Promise.allSettled` over the handler group). -/
def dispatch (now : Nat) (group : List (String × HandlerOutcome))
    (results : ResultMap) (errored0 : Bool) : DispatchState :=
  group.foldl (runHandler now) ⟨results, errored0, []⟩

/-- Handlers of the group whose stored result lacks `processed_at`
(src/unnamed/part_003 lines 406-411). -/
def remainingHandlers (group : List (String × HandlerOutcome))
    (results : ResultMap) : List (String × HandlerOutcome) :=
  group.filter (fun h => ((recordGet results h.1).bind (fun r => r.processed_at)).isNone)

/-- The terminal-sweep condition (src/unnamed/part_003 lines 413-418): at
least one handler has not succeeded, and every such handler is marked
unprocessable. -/
def allRemainingUnprocessable (group : List (String × HandlerOutcome))
    (results : ResultMap) : Bool :=
  let rem := remainingHandlers group results
  !rem.isEmpty &&
    rem.all (fun h => ((recordGet results h.1).bind (fun r => r.unprocessable_at)).isSome)

/-- Observable outcome of one `processEvent` attempt: whether the storage
transaction was opened, which handlers were invoked, the argument of the
`updateEvent` call (none when no update was issued), the final `errored`
flag, whether the max-errors hook ran, whether a hook error was logged, and
whether an exception propagated out of the transaction body. -/
structure AttemptResult where
  txOpened : Bool
  invoked : List String
  updated : Option Event
  errored : Bool
  hookCalled : Bool
  hookErrorLogged : Bool
  raised : Bool
deriving Repr, DecidableEq

/-- An attempt that returned without invoking handlers or updating. -/
def skipResult (tx : Bool) : AttemptResult :=
  { txOpened := tx, invoked := [], updated := none, errored := false,
    hookCalled := false, hookErrorLogged := false, raised := false }

/-- The tail of the transaction body after the terminal sweep
(src/unnamed/part_003 lines 425-468): compute the next event state from the
`errored` flag and the swept event `ev2`, run the max-errors hook on the
terminal-failure path, and call `updateEvent` unless the hook rejected.
`retryBackoff` gives the instant persisted as `backoff_until` on the
non-terminal errored path; the part_003 generation passes the configured
`backoff` directly, the latest-wins generation passes the reconciliation of
`backoff` with the collected hints.  `hook` is `none` when the max-errors
hook is not configured, and `some throws` when it is, `throws` telling
whether its invocation rejects; a rejection is logged and rethrown, which
suppresses the `updateEvent` call. -/
def finishEvent (maxErrors : Nat) (retryBackoff : Nat → Nat)
    (hook : Option Bool) (now : Nat) (errored : Bool) (invoked : List String)
    (ev2 : Event) : AttemptResult :=
  if errored then
    if min (ev2.errors + 1) maxErrors = maxErrors then
      { txOpened := true, invoked := invoked,
        updated := if hook = some true then none
          else some { ev2 with
            errors := min (ev2.errors + 1) maxErrors,
            backoff_until := none, processed_at := some now },
        errored := true,
        hookCalled := hook.isSome,
        hookErrorLogged := decide (hook = some true),
        raised := decide (hook = some true) }
    else
      { txOpened := true, invoked := invoked,
        updated := some { ev2 with
          errors := min (ev2.errors + 1) maxErrors,
          backoff_until := some (retryBackoff (min (ev2.errors + 1) maxErrors)) },
        errored := true, hookCalled := false, hookErrorLogged := false,
        raised := false }
  else
    { txOpened := true, invoked := invoked,
      updated := some { ev2 with
        backoff_until := none, processed_at := some now },
      errored := false, hookCalled := false, hookErrorLogged := false,
      raised := false }

/-- The body of the `client.transaction` scope of `processEvent`
(src/unnamed/part_003 lines 259-469) once the lock-skip fetch has returned a
row `ev`: re-gate on `processed_at` and `errors`, resolve the handler group
(poisoning the event when the type has no entry in the handler map), dispatch
the handlers, apply the terminal sweep, then finish with `finishEvent`.
The source assigns `lockedEvent.errors = maxErrors` in the missing-group
branch before the dispatch loop; the loop never reads `errors`, so the
embedding folds that assignment into the final errors expression together
with the terminal-sweep assignment. -/
def processLocked (maxErrors : Nat) (backoff : Nat → Nat) (hook : Option Bool)
    (handlerMap : HandlerMap) (now : Nat) (ev : Event) : AttemptResult :=
  if ev.processed_at.isSome then skipResult true
  else if maxErrors ≤ ev.errors then skipResult true
  else
    let present := (recordGet handlerMap ev.type_).isSome
    let group := (recordGet handlerMap ev.type_).getD []
    let st := dispatch now group ev.handler_results (!present)
    let swept := allRemainingUnprocessable group st.results
    finishEvent maxErrors backoff hook now (st.errored || swept) st.invoked
      { ev with
        handler_results := st.results,
        errors := if swept then maxErrors
          else if present then ev.errors else maxErrors }

/-- One `processEvent` attempt (src/unnamed/part_003 lines 222-470).
`signalAborted` is the abort-signal trace; the source reads it exactly once,
before opening the transaction, which the embedding samples at index 0.
`unlockedEvent` is the `(id, errors)` snapshot from polling, `lockedEvent`
what `getEventByIdForUpdateSkipLocked` returns inside the transaction. -/
def processEvent (maxErrors : Nat) (backoff : Nat → Nat) (hook : Option Bool)
    (handlerMap : HandlerMap) (signalAborted : Nat → Bool) (now : Nat)
    (unlockedEvent : String × Nat) (lockedEvent : Option Event) :
    AttemptResult :=
  if signalAborted 0 then skipResult false
  else if maxErrors ≤ unlockedEvent.2 then skipResult false
  else
    match lockedEvent with
    | none => skipResult true
    | some ev => processLocked maxErrors backoff hook handlerMap now ev

/-- Dispatch state of the latest-wins processor generation, extending
`DispatchState` with the list of collected backoff hints. -/
structure DispatchStateH where
  results : ResultMap
  errored : Bool
  invoked : List String
  hints : List Nat
deriving Repr, DecidableEq

/-- Modelled from the spec: the processor generation that reads the
`backoffUntil` hint of a thrown `TxOBError` is not present under src;
src/src/error.ts declares `TxOBError` and the tests in the repository
exercise the behaviour, but the handler task that collects the hints is
missing.  Following spec section 4.5 step 6, this handler task is
`runHandler` plus: on a failure that is not unprocessable and carries a
`backoffUntil` hint, the hint is appended to the collected list. -/
def runHandlerHints (now : Nat) (st : DispatchStateH)
    (h : String × HandlerOutcome) : DispatchStateH :=
  let hr := (recordGet st.results h.1).getD {}
  if hr.processed_at.isSome then st
  else if hr.unprocessable_at.isSome then st
  else
    let hr1 : HandlerResult := { hr with errors := some (hr.errors.getD []) }
    match h.2 with
    | .success =>
        { results := recordSet st.results h.1 { hr1 with processed_at := some now },
          errored := st.errored,
          invoked := st.invoked ++ [h.1],
          hints := st.hints }
    | .failure msg true _ =>
        { results := recordSet st.results h.1
            { hr1 with
                unprocessable_at := some now,
                errors := some (hr1.errors.getD [] ++ [(msg, now)]) },
          errored := true,
          invoked := st.invoked ++ [h.1],
          hints := st.hints }
    | .failure msg false hint =>
        { results := recordSet st.results h.1
            { hr1 with errors := some (hr1.errors.getD [] ++ [(msg, now)]) },
          errored := true,
          invoked := st.invoked ++ [h.1],
          hints := st.hints ++ hint.toList }

/-- Modelled from the spec: the dispatch loop of the latest-wins processor
generation (see `runHandlerHints`). -/
def dispatchHints (now : Nat) (group : List (String × HandlerOutcome))
    (results : ResultMap) (errored0 : Bool) : DispatchStateH :=
  group.foldl (runHandlerHints now) ⟨results, errored0, [], []⟩

/-- Modelled from the spec, section 4.5 step 8: the latest-wins rule,
`nextBackoff = max(collected hints together with the default backoff)`. -/
def nextBackoff (deflt : Nat) (hints : List Nat) : Nat :=
  hints.foldl max deflt

/-- Modelled from the spec: the transaction body of the latest-wins processor
generation.  Identical to `processLocked` except that the dispatch collects
backoff hints and the non-terminal errored branch persists
`nextBackoff` of the hints and the default backoff instead of the default
alone. -/
def processLockedHints (maxErrors : Nat) (backoff : Nat → Nat)
    (hook : Option Bool) (handlerMap : HandlerMap) (now : Nat) (ev : Event) :
    AttemptResult :=
  if ev.processed_at.isSome then skipResult true
  else if maxErrors ≤ ev.errors then skipResult true
  else
    let present := (recordGet handlerMap ev.type_).isSome
    let group := (recordGet handlerMap ev.type_).getD []
    let st := dispatchHints now group ev.handler_results (!present)
    let swept := allRemainingUnprocessable group st.results
    finishEvent maxErrors (fun errs => nextBackoff (backoff errs) st.hints)
      hook now (st.errored || swept) st.invoked
      { ev with
        handler_results := st.results,
        errors := if swept then maxErrors
          else if present then ev.errors else maxErrors }

/-- Modelled from the spec: one attempt of the latest-wins processor
generation, gated exactly like `processEvent`. -/
def processEventHints (maxErrors : Nat) (backoff : Nat → Nat)
    (hook : Option Bool) (handlerMap : HandlerMap) (signalAborted : Nat → Bool)
    (now : Nat) (unlockedEvent : String × Nat) (lockedEvent : Option Event) :
    AttemptResult :=
  if signalAborted 0 then skipResult false
  else if maxErrors ≤ unlockedEvent.2 then skipResult false
  else
    match lockedEvent with
    | none => skipResult true
    | some ev => processLockedHints maxErrors backoff hook handlerMap now ev

/-- A JavaScript error value: a message, optionally with a `cause`. -/
inductive JsErr where
  | simple (msg : String)
  | withCause (msg : String) (cause : JsErr)
deriving Repr, DecidableEq

/-- The message of a JavaScript error value. -/
def JsErr.message : JsErr → String
  | .simple m => m
  | .withCause m _ => m

/-- The `cause` of a JavaScript error value, when present. -/
def JsErr.causeOf : JsErr → Option JsErr
  | .simple _ => none
  | .withCause _ c => some c

/-- The composite error built by the Postgres adapter when rollback itself
fails (src/src/pg/client.ts lines 104-113): message from both errors, cause
set to the original error. -/
def rollbackComposite (orig rbe : JsErr) : JsErr :=
  .withCause
    ("Transaction failed: " ++ orig.message ++ " (rollback also failed: "
      ++ rbe.message ++ ")")
    orig

/-- Observable outcome of `transaction(fn)` in the Postgres adapter: which
control queries were issued, and the rejection value when the call rejects. -/
structure TxResult where
  queries : List String
  outcome : Option JsErr
deriving Repr, DecidableEq

/-- The catch block of the adapter transaction (src/src/pg/client.ts lines
100-117): issue ROLLBACK; if rollback also fails, reject with the composite
error, otherwise rethrow the original error. -/
def txCatch (e : JsErr) (rollbackE : Option JsErr) (qs : List String) :
    TxResult :=
  match rollbackE with
  | some rbe => ⟨qs ++ ["ROLLBACK"], some (rollbackComposite e rbe)⟩
  | none => ⟨qs ++ ["ROLLBACK"], some e⟩

/-- The adapter `transaction(fn)` wrapper (src/src/pg/client.ts lines 48-118):
BEGIN, run the body, COMMIT; any exception from the try block enters
`txCatch`.  `beginE`, `fnE`, `commitE`, `rollbackE` are the rejection values
of the respective steps, `none` meaning the step succeeds. -/
def transaction (beginE fnE commitE rollbackE : Option JsErr) : TxResult :=
  match beginE with
  | some e => txCatch e rollbackE ["BEGIN"]
  | none =>
    match fnE with
    | some e => txCatch e rollbackE ["BEGIN"]
    | none =>
      match commitE with
      | some e => txCatch e rollbackE ["BEGIN", "COMMIT"]
      | none => ⟨["BEGIN", "COMMIT"], none⟩

/-- The external circumstances of one attempt on a stored event: the
processor options, the abort trace, the attempt instant, and whether the
lock-skip fetch returns the row (`locked = false` models a skip by another
worker or a disqualifying predicate). -/
structure AttemptEnv where
  maxErrors : Nat
  backoff : Nat → Nat
  hook : Option Bool
  handlerMap : HandlerMap
  signalAborted : Nat → Bool
  now : Nat
  locked : Bool

/-- The stored event after one attempt: the `updateEvent` argument when the
attempt updated, the unchanged row otherwise. -/
def stepEvent (env : AttemptEnv) (e : Event) : Event :=
  match (processEvent env.maxErrors env.backoff env.hook env.handlerMap
      env.signalAborted env.now (e.id, e.errors)
      (if env.locked then some e else none)).updated with
  | some e' => e'
  | none => e

/-- The stored event after a sequence of attempts. -/
def runAttempts (envs : List AttemptEnv) (e : Event) : Event :=
  envs.foldl (fun acc env => stepEvent env acc) e

/-- The stored result of `name` is terminal for the dispatch loop: its
`processed_at` or its `unprocessable_at` is set. -/
def hrDone (results : ResultMap) (name : String) : Bool :=
  match recordGet results name with
  | some r => r.processed_at.isSome || r.unprocessable_at.isSome
  | none => false

/-- Concrete inputs used by the witness theorems below. -/
def bW : Nat → Nat := fun n => 5 + n

def sW : Nat → Bool := fun _ => false

def sW2 : Nat → Bool := fun n => decide (n = 1)

def sTrueW : Nat → Bool := fun _ => true

def evW : Event :=
  { id := "e1", timestamp := 0, type_ := "X", data := "", correlation_id := "c",
    handler_results := [], errors := 2, backoff_until := none, processed_at := none }

def evW0 : Event :=
  { id := "e1", timestamp := 0, type_ := "X", data := "", correlation_id := "c",
    handler_results := [], errors := 0, backoff_until := none, processed_at := none }

def mapW1 : HandlerMap := [("X", [("a", .failure "boom" false none)])]

def outW1 : Event :=
  { id := "e1", timestamp := 0, type_ := "X", data := "", correlation_id := "c",
    handler_results := [("a",
      { processed_at := none, unprocessable_at := none,
        errors := some [("boom", 7)] })],
    errors := 3, backoff_until := none, processed_at := some 7 }

def mapW2 : HandlerMap :=
  [("X", [("h1", .failure "ea" false (some 10)),
          ("h2", .failure "eb" false (some 20))])]

def outW2 : Event :=
  { id := "e1", timestamp := 0, type_ := "X", data := "", correlation_id := "c",
    handler_results :=
      [("h1", { processed_at := none, unprocessable_at := none,
                errors := some [("ea", 7)] }),
       ("h2", { processed_at := none, unprocessable_at := none,
                errors := some [("eb", 7)] })],
    errors := 1, backoff_until := some 20, processed_at := none }

def gW3 : List (String × HandlerOutcome) :=
  [("a", .success), ("bb", .failure "u" true none)]

def mapW3 : HandlerMap := [("X", gW3)]

def evW4 : Event :=
  { id := "e1", timestamp := 0, type_ := "X", data := "", correlation_id := "c",
    handler_results := [("a",
      { processed_at := some 1, unprocessable_at := none, errors := none })],
    errors := 0, backoff_until := none, processed_at := none }

def mapW4 : HandlerMap := [("X", [("a", .success), ("b2", .success)])]

def mapW6 : HandlerMap := [("X", [])]

def envW8 : AttemptEnv :=
  { maxErrors := 3, backoff := bW, hook := none,
    handlerMap := [("X", [("a", .success), ("bb", .failure "u" true none),
      ("c", .failure "x" false none)])],
    signalAborted := sW, now := 7, locked := true }

def eW8 : Event :=
  { id := "e1", timestamp := 0, type_ := "X", data := "", correlation_id := "c",
    handler_results :=
      [("a", { processed_at := some 3, unprocessable_at := none, errors := none }),
       ("bb", { processed_at := none, unprocessable_at := some 4,
                errors := some [("u", 2)] })],
    errors := 1, backoff_until := none, processed_at := none }

def eW8b : Event :=
  { id := "e2", timestamp := 0, type_ := "X", data := "", correlation_id := "c",
    handler_results := [], errors := 0, backoff_until := none,
    processed_at := some 5 }

def eW9 : JsErr := .simple "boom"

def rbeW : JsErr := .simple "rollback failed"

theorem recordGet_recordSet_ne {α : Type} (m : List (String × α)) (k k' : String)
    (v : α) (h : k ≠ k') : recordGet (recordSet m k v) k' = recordGet m k' := by
  induction m with
  | nil => simp [recordSet, recordGet, h]
  | cons p rest ih =>
      obtain ⟨k0, v0⟩ := p
      by_cases hk0 : k0 = k
      · subst hk0
        simp [recordSet, recordGet, h]
      · simp only [recordSet, recordGet, if_neg hk0]
        by_cases hk0' : k0 = k'
        · simp [hk0']
        · simp [hk0', ih]

theorem runHandler_done (now : Nat) (st : DispatchState)
    (h : String × HandlerOutcome) (name : String)
    (hd : hrDone st.results name = true) :
    hrDone (runHandler now st h).results name = true ∧
      (name ∉ st.invoked → name ∉ (runHandler now st h).invoked) := by
  by_cases hk : h.1 = name
  · have hd' := hd
    unfold hrDone at hd'
    cases hg : recordGet st.results name with
    | none => rw [hg] at hd'; simp at hd'
    | some r =>
        rw [hg] at hd'
        simp only [runHandler, hk, hg, Option.getD_some]
        rcases Bool.or_eq_true_iff.mp hd' with hp | hu
        · rw [if_pos hp]
          exact ⟨hd, fun hni => hni⟩
        · by_cases hp : r.processed_at.isSome
          · rw [if_pos hp]
            exact ⟨hd, fun hni => hni⟩
          · rw [if_neg hp, if_pos hu]
            exact ⟨hd, fun hni => hni⟩
  · have hpre : ∀ v : HandlerResult,
        hrDone (recordSet st.results h.1 v) name = true ∧
          (name ∉ st.invoked → name ∉ st.invoked ++ [h.1]) := by
      intro v
      constructor
      · unfold hrDone at hd ⊢
        rw [recordGet_recordSet_ne _ _ _ _ hk]
        exact hd
      · intro hni hmem
        rcases List.mem_append.mp hmem with hin | hsing
        · exact hni hin
        · exact hk (List.mem_singleton.mp hsing).symm
    simp only [runHandler]
    split_ifs with h1 h2
    · exact ⟨hd, fun hni => hni⟩
    · exact ⟨hd, fun hni => hni⟩
    · rcases ho : h.2 with _ | ⟨msg, unp, bh⟩
      · simp only [ho]
        exact hpre _
      · cases unp <;> simp only [ho] <;> exact hpre _

theorem foldl_runHandler_done (now : Nat) (group : List (String × HandlerOutcome))
    (st : DispatchState) (name : String)
    (hd : hrDone st.results name = true) (hni : name ∉ st.invoked) :
    hrDone (group.foldl (runHandler now) st).results name = true ∧
      name ∉ (group.foldl (runHandler now) st).invoked := by
  induction group generalizing st with
  | nil => exact ⟨hd, hni⟩
  | cons h rest ih =>
      obtain ⟨hd1, hni1⟩ := runHandler_done now st h name hd
      exact ih (runHandler now st h) hd1 (hni1 hni)

theorem runHandler_hrProc (now : Nat) (st : DispatchState)
    (h : String × HandlerOutcome) (name : String) (t : Nat)
    (hp : (recordGet st.results name).bind (fun r => r.processed_at) = some t) :
    (recordGet (runHandler now st h).results name).bind
      (fun r => r.processed_at) = some t := by
  by_cases hk : h.1 = name
  · cases hg : recordGet st.results name with
    | none => rw [hg] at hp; simp at hp
    | some r =>
        rw [hg] at hp
        simp only [Option.some_bind] at hp
        have hps : r.processed_at.isSome := by rw [hp]; rfl
        simp only [runHandler, hk, hg, Option.getD_some, if_pos hps]
        simpa using hp
  · simp only [runHandler]
    split_ifs with h1 h2
    · exact hp
    · exact hp
    · rcases ho : h.2 with _ | ⟨msg, unp, bh⟩
      · simp only [ho, recordGet_recordSet_ne _ _ _ _ hk]
        exact hp
      · cases unp <;> simp only [ho, recordGet_recordSet_ne _ _ _ _ hk] <;> exact hp

theorem foldl_runHandler_hrProc (now : Nat)
    (group : List (String × HandlerOutcome)) (st : DispatchState)
    (name : String) (t : Nat)
    (hp : (recordGet st.results name).bind (fun r => r.processed_at) = some t) :
    (recordGet (group.foldl (runHandler now) st).results name).bind
      (fun r => r.processed_at) = some t := by
  induction group generalizing st with
  | nil => exact hp
  | cons h rest ih => exact ih (runHandler now st h) (runHandler_hrProc now st h name t hp)

theorem runHandler_hrUnproc (now : Nat) (st : DispatchState)
    (h : String × HandlerOutcome) (name : String) (t : Nat)
    (hp : (recordGet st.results name).bind (fun r => r.unprocessable_at) = some t) :
    (recordGet (runHandler now st h).results name).bind
      (fun r => r.unprocessable_at) = some t := by
  by_cases hk : h.1 = name
  · cases hg : recordGet st.results name with
    | none => rw [hg] at hp; simp at hp
    | some r =>
        rw [hg] at hp
        simp only [Option.some_bind] at hp
        have hus : r.unprocessable_at.isSome := by rw [hp]; rfl
        by_cases hps : r.processed_at.isSome
        · simp only [runHandler, hk, hg, Option.getD_some, if_pos hps]
          simpa using hp
        · simp only [runHandler, hk, hg, Option.getD_some, if_neg hps, if_pos hus]
          simpa using hp
  · simp only [runHandler]
    split_ifs with h1 h2
    · exact hp
    · exact hp
    · rcases ho : h.2 with _ | ⟨msg, unp, bh⟩
      · simp only [ho, recordGet_recordSet_ne _ _ _ _ hk]
        exact hp
      · cases unp <;> simp only [ho, recordGet_recordSet_ne _ _ _ _ hk] <;> exact hp

theorem foldl_runHandler_hrUnproc (now : Nat)
    (group : List (String × HandlerOutcome)) (st : DispatchState)
    (name : String) (t : Nat)
    (hp : (recordGet st.results name).bind (fun r => r.unprocessable_at) = some t) :
    (recordGet (group.foldl (runHandler now) st).results name).bind
      (fun r => r.unprocessable_at) = some t := by
  induction group generalizing st with
  | nil => exact hp
  | cons h rest ih => exact ih (runHandler now st h) (runHandler_hrUnproc now st h name t hp)

theorem finishEvent_spec (m : Nat) (rb : Nat → Nat) (hook : Option Bool)
    (now : Nat) (errored : Bool) (invoked : List String) (ev2 e' : Event)
    (h : (finishEvent m rb hook now errored invoked ev2).updated = some e') :
    e'.handler_results = ev2.handler_results ∧
    ((errored = false ∧
        e' = { ev2 with backoff_until := none, processed_at := some now }) ∨
      (errored = true ∧ e'.errors = min (ev2.errors + 1) m ∧
        ((min (ev2.errors + 1) m = m ∧ e'.processed_at = some now ∧
            e'.backoff_until = none ∧ hook ≠ some true) ∨
          (min (ev2.errors + 1) m ≠ m ∧
            e'.backoff_until = some (rb (min (ev2.errors + 1) m)) ∧
            e'.processed_at = ev2.processed_at)))) := by
  unfold finishEvent at h
  split at h
  · rename_i herr
    split at h
    · rename_i hterm
      split at h
      · simp at h
      · rename_i hhk
        simp only [Option.some_inj] at h
        subst h
        exact ⟨rfl, Or.inr ⟨herr, rfl, Or.inl ⟨hterm, rfl, rfl, hhk⟩⟩⟩
    · rename_i hterm
      simp only [Option.some_inj] at h
      subst h
      exact ⟨rfl, Or.inr ⟨herr, rfl, Or.inr ⟨hterm, rfl, rfl⟩⟩⟩
  · rename_i herr
    simp only [Option.some_inj] at h
    subst h
    exact ⟨rfl, Or.inl ⟨Bool.eq_false_iff.mpr herr, rfl⟩⟩

theorem finishEvent_errors (m : Nat) (rb : Nat → Nat) (hook : Option Bool)
    (now : Nat) (errored : Bool) (invoked : List String) (ev2 e' : Event)
    (a : Nat)
    (h : (finishEvent m rb hook now errored invoked ev2).updated = some e')
    (hbound : ev2.errors = a ∨ ev2.errors = m) (ha : a < m) :
    (e'.errors = a ∨ e'.errors = min (a + 1) m ∨ e'.errors = m) ∧
    e'.errors ≤ m ∧
    (e'.errors = m → e'.processed_at = some now ∧ e'.backoff_until = none) := by
  obtain ⟨hhr, hcases⟩ := finishEvent_spec _ _ _ _ _ _ _ _ h
  rcases hcases with ⟨_, hev⟩ | ⟨_, herrs, hrest⟩
  · subst hev
    dsimp only
    rcases hbound with hb | hb <;> rw [hb]
    · exact ⟨Or.inl rfl, Nat.le_of_lt ha, fun _ => ⟨rfl, rfl⟩⟩
    · exact ⟨Or.inr (Or.inr rfl), Nat.le_refl m, fun _ => ⟨rfl, rfl⟩⟩
  · rcases hrest with ⟨hterm, hproc, hbk, _⟩ | ⟨hterm, hbk, hproc⟩
    · rw [herrs, hterm]
      exact ⟨Or.inr (Or.inr rfl), Nat.le_refl m, fun _ => ⟨hproc, hbk⟩⟩
    · rcases hbound with hb | hb
      · rw [hb] at herrs hterm
        refine ⟨Or.inr (Or.inl herrs), ?_, ?_⟩
        · rw [herrs]
          exact Nat.min_le_right _ _
        · intro hcon
          rw [herrs] at hcon
          exact absurd hcon hterm
      · rw [hb] at hterm
        exact absurd (Nat.min_eq_right (Nat.le_succ m)) hterm

theorem processLocked_spec (m : Nat) (b : Nat → Nat) (hook : Option Bool)
    (map : HandlerMap) (now : Nat) (ev e' : Event)
    (h : (processLocked m b hook map now ev).updated = some e') :
    ev.processed_at = none ∧
    ev.errors < m ∧
    e'.handler_results =
      (dispatch now ((recordGet map ev.type_).getD []) ev.handler_results
        (!(recordGet map ev.type_).isSome)).results ∧
    (e'.errors = ev.errors ∨ e'.errors = min (ev.errors + 1) m ∨ e'.errors = m) ∧
    e'.errors ≤ m ∧
    (e'.errors = m → e'.processed_at = some now ∧ e'.backoff_until = none) := by
  simp only [processLocked] at h
  split at h
  · simp [skipResult] at h
  · split at h
    · simp [skipResult] at h
    · rename_i hps hme
      have hpn : ev.processed_at = none := by
        cases hpe : ev.processed_at
        · rfl
        · rw [hpe] at hps; simp at hps
      have hlt : ev.errors < m := Nat.lt_of_not_le hme
      have hmain := finishEvent_errors _ _ _ _ _ _ _ _ ev.errors h ?hbound hlt
      case hbound =>
        dsimp only
        split
        · exact Or.inr rfl
        · split
          · exact Or.inl rfl
          · exact Or.inr rfl
      have hhr := (finishEvent_spec _ _ _ _ _ _ _ _ h).1
      dsimp only at hhr
      exact ⟨hpn, hlt, hhr, hmain⟩

theorem processEvent_updated (m : Nat) (b : Nat → Nat) (hook : Option Bool)
    (map : HandlerMap) (s : Nat → Bool) (now : Nat) (u : String × Nat)
    (locked : Option Event) (e' : Event)
    (h : (processEvent m b hook map s now u locked).updated = some e') :
    ∃ ev, locked = some ev ∧
      (processLocked m b hook map now ev).updated = some e' := by
  unfold processEvent at h
  split at h
  · simp [skipResult] at h
  · split at h
    · simp [skipResult] at h
    · cases locked with
      | none => simp [skipResult] at h
      | some ev => exact ⟨ev, rfl, h⟩

theorem finishEvent_invoked (m : Nat) (rb : Nat → Nat) (hook : Option Bool)
    (now : Nat) (er : Bool) (inv : List String) (ev2 : Event) :
    (finishEvent m rb hook now er inv ev2).invoked = inv := by
  unfold finishEvent
  split
  · split <;> rfl
  · rfl

theorem finishEvent_errored (m : Nat) (rb : Nat → Nat) (hook : Option Bool)
    (now : Nat) (er : Bool) (inv : List String) (ev2 : Event) :
    (finishEvent m rb hook now er inv ev2).errored = er := by
  unfold finishEvent
  split
  · rename_i he
    split <;> exact he.symm
  · rename_i he
    simp only [Bool.not_eq_true] at he
    exact he.symm

theorem finishEvent_hook (m : Nat) (rb : Nat → Nat) (now : Nat) (er : Bool)
    (inv : List String) (ev2 : Event)
    (h : (finishEvent m rb (some true) now er inv ev2).hookCalled = true) :
    (finishEvent m rb (some true) now er inv ev2).hookErrorLogged = true ∧
    (finishEvent m rb (some true) now er inv ev2).raised = true ∧
    (finishEvent m rb (some true) now er inv ev2).updated = none := by
  by_cases he : er = true
  · by_cases ht : min (ev2.errors + 1) m = m
    · simp [finishEvent, he, ht]
    · simp [finishEvent, he, ht] at h
  · simp [finishEvent, he] at h

/-- C1.  At every commit of `updateEvent` performed by an event-processing
attempt, the persisted event satisfies `errors ≤ maxErrors`, and when
`errors = maxErrors` its `processed_at` is set and its `backoff_until` is
null. -/
theorem claim_c1 (m : Nat) (b : Nat → Nat) (hook : Option Bool)
    (map : HandlerMap) (s : Nat → Bool) (now : Nat) (u : String × Nat)
    (locked : Option Event) (e' : Event)
    (h : (processEvent m b hook map s now u locked).updated = some e') :
    e'.errors ≤ m ∧
      (e'.errors = m → e'.processed_at.isSome ∧ e'.backoff_until = none) := by
  obtain ⟨ev, -, hpl⟩ := processEvent_updated m b hook map s now u locked e' h
  obtain ⟨-, -, -, -, hle, himp⟩ := processLocked_spec m b hook map now ev e' hpl
  refine ⟨hle, fun hm => ⟨?_, (himp hm).2⟩⟩
  rw [(himp hm).1]
  rfl

/-- C4.  A handler whose stored `HandlerResult` already carries
`processed_at` or `unprocessable_at` when the event is dispatched is never
invoked by the attempt. -/
theorem claim_c4 (m : Nat) (b : Nat → Nat) (hook : Option Bool)
    (map : HandlerMap) (s : Nat → Bool) (now : Nat) (u : String × Nat)
    (ev : Event) (name : String)
    (hd : hrDone ev.handler_results name = true) :
    name ∉ (processEvent m b hook map s now u (some ev)).invoked := by
  unfold processEvent
  split
  · simp [skipResult]
  · split
    · simp [skipResult]
    · simp only [processLocked]
      split
      · simp [skipResult]
      · split
        · simp [skipResult]
        · rw [finishEvent_invoked]
          exact (foldl_runHandler_done now _ ⟨ev.handler_results, _, []⟩ name hd
            (List.not_mem_nil name)).2

/-- C7.  When the configured max-errors hook throws during a
terminal-failure attempt, the hook error is logged and re-raised out of the
transaction body, and no `updateEvent` is issued, so no terminal state is
persisted. -/
theorem claim_c7 (m : Nat) (b : Nat → Nat) (map : HandlerMap)
    (s : Nat → Bool) (now : Nat) (u : String × Nat) (locked : Option Event)
    (h : (processEvent m b (some true) map s now u locked).hookCalled = true) :
    (processEvent m b (some true) map s now u locked).hookErrorLogged = true ∧
    (processEvent m b (some true) map s now u locked).raised = true ∧
    (processEvent m b (some true) map s now u locked).updated = none := by
  unfold processEvent at h ⊢
  by_cases hs : s 0 = true
  · rw [if_pos hs] at h
    simp [skipResult] at h
  · rw [if_neg hs] at h ⊢
    by_cases hm : m ≤ u.2
    · rw [if_pos hm] at h
      simp [skipResult] at h
    · rw [if_neg hm] at h ⊢
      cases locked with
      | none => simp [skipResult] at h
      | some ev =>
          simp only [processLocked] at h ⊢
          by_cases hps : ev.processed_at.isSome = true
          · rw [if_pos hps] at h
            simp [skipResult] at h
          · rw [if_neg hps] at h ⊢
            by_cases hme : m ≤ ev.errors
            · rw [if_pos hme] at h
              simp [skipResult] at h
            · rw [if_neg hme] at h ⊢
              exact finishEvent_hook _ _ _ _ _ _ h

/-- C9.  When an exception propagates out of the body of the Postgres
adapter transaction, a ROLLBACK is issued; when the rollback itself also
fails, the call rejects with the composite error whose cause is the original
error. -/
theorem claim_c9 (e : JsErr) (commitE rollbackE : Option JsErr) :
    "ROLLBACK" ∈ (transaction none (some e) commitE rollbackE).queries ∧
    (∀ rbe, rollbackE = some rbe →
      (transaction none (some e) commitE rollbackE).outcome =
        some (rollbackComposite e rbe) ∧
      (rollbackComposite e rbe).causeOf = some e) := by
  constructor
  · cases rollbackE <;> simp [transaction, txCatch]
  · intro rbe hr
    subst hr
    exact ⟨rfl, rfl⟩

/-- C10.  The attempt reads the abort signal exactly once, before the
transaction is opened: two signal traces agreeing at that single read point
give identical attempt results (so an abort raised later skips no handler
and suppresses no update), and an abort observed at the read point prevents
the transaction from being opened at all. -/
theorem claim_c10 (m : Nat) (b : Nat → Nat) (hook : Option Bool)
    (map : HandlerMap) (s1 s2 : Nat → Bool) (now : Nat) (u : String × Nat)
    (locked : Option Event) (h : s1 0 = s2 0) :
    processEvent m b hook map s1 now u locked =
      processEvent m b hook map s2 now u locked ∧
    (s1 0 = true → (processEvent m b hook map s1 now u locked).txOpened = false) := by
  constructor
  · unfold processEvent
    rw [h]
  · intro ha
    unfold processEvent
    rw [ha]
    simp [skipResult]

theorem stepEvent_locked (env : AttemptEnv) (e e' : Event)
    (hu : (processEvent env.maxErrors env.backoff env.hook env.handlerMap
      env.signalAborted env.now (e.id, e.errors)
      (if env.locked then some e else none)).updated = some e') :
    (processLocked env.maxErrors env.backoff env.hook env.handlerMap
      env.now e).updated = some e' := by
  obtain ⟨ev, hev, hpl⟩ := processEvent_updated _ _ _ _ _ _ _ _ _ hu
  have hee : ev = e := by
    cases hl : env.locked <;> rw [hl] at hev
    · simp at hev
    · exact (Option.some_inj.mp hev).symm
  rw [hee] at hpl
  exact hpl

theorem stepEvent_errors_mono (env : AttemptEnv) (e : Event) :
    e.errors ≤ (stepEvent env e).errors := by
  unfold stepEvent
  cases hu : (processEvent env.maxErrors env.backoff env.hook env.handlerMap
      env.signalAborted env.now (e.id, e.errors)
      (if env.locked then some e else none)).updated with
  | none => exact Nat.le_refl _
  | some e' =>
      obtain ⟨-, hlt, -, hdisj, -, -⟩ :=
        processLocked_spec _ _ _ _ _ _ _ (stepEvent_locked env e e' hu)
      rcases hdisj with hd | hd | hd <;> rw [hd] <;> omega

theorem stepEvent_processed (env : AttemptEnv) (e : Event)
    (h : e.processed_at.isSome) : stepEvent env e = e := by
  unfold stepEvent
  cases hu : (processEvent env.maxErrors env.backoff env.hook env.handlerMap
      env.signalAborted env.now (e.id, e.errors)
      (if env.locked then some e else none)).updated with
  | none => rfl
  | some e' =>
      obtain ⟨hpn, -, -, -, -, -⟩ :=
        processLocked_spec _ _ _ _ _ _ _ (stepEvent_locked env e e' hu)
      rw [hpn] at h
      simp at h

theorem stepEvent_hrProc (env : AttemptEnv) (e : Event) (name : String) (t : Nat)
    (hp : (recordGet e.handler_results name).bind (fun r => r.processed_at) = some t) :
    (recordGet (stepEvent env e).handler_results name).bind
      (fun r => r.processed_at) = some t := by
  unfold stepEvent
  cases hu : (processEvent env.maxErrors env.backoff env.hook env.handlerMap
      env.signalAborted env.now (e.id, e.errors)
      (if env.locked then some e else none)).updated with
  | none => exact hp
  | some e' =>
      obtain ⟨-, -, hhr, -, -, -⟩ :=
        processLocked_spec _ _ _ _ _ _ _ (stepEvent_locked env e e' hu)
      rw [hhr]
      exact foldl_runHandler_hrProc env.now _ ⟨e.handler_results, _, []⟩ name t hp

theorem stepEvent_hrUnproc (env : AttemptEnv) (e : Event) (name : String) (t : Nat)
    (hp : (recordGet e.handler_results name).bind (fun r => r.unprocessable_at) = some t) :
    (recordGet (stepEvent env e).handler_results name).bind
      (fun r => r.unprocessable_at) = some t := by
  unfold stepEvent
  cases hu : (processEvent env.maxErrors env.backoff env.hook env.handlerMap
      env.signalAborted env.now (e.id, e.errors)
      (if env.locked then some e else none)).updated with
  | none => exact hp
  | some e' =>
      obtain ⟨-, -, hhr, -, -, -⟩ :=
        processLocked_spec _ _ _ _ _ _ _ (stepEvent_locked env e e' hu)
      rw [hhr]
      exact foldl_runHandler_hrUnproc env.now _ ⟨e.handler_results, _, []⟩ name t hp

/-- C8.  Across any sequence of attempts on a stored event, the error
counter is non-decreasing, an event-level `processed_at` once set is never
unset, and a handler entry whose `processed_at` or `unprocessable_at` is set
keeps that exact value. -/
theorem claim_c8 (envs : List AttemptEnv) (e : Event) :
    e.errors ≤ (runAttempts envs e).errors ∧
    (e.processed_at.isSome → (runAttempts envs e).processed_at = e.processed_at) ∧
    (∀ name t, (recordGet e.handler_results name).bind
        (fun r => r.processed_at) = some t →
      (recordGet (runAttempts envs e).handler_results name).bind
        (fun r => r.processed_at) = some t) ∧
    (∀ name t, (recordGet e.handler_results name).bind
        (fun r => r.unprocessable_at) = some t →
      (recordGet (runAttempts envs e).handler_results name).bind
        (fun r => r.unprocessable_at) = some t) := by
  induction envs generalizing e with
  | nil =>
      exact ⟨Nat.le_refl _, fun _ => rfl, fun _ _ hp => hp, fun _ _ hp => hp⟩
  | cons env rest ih =>
      have hstep : runAttempts (env :: rest) e = runAttempts rest (stepEvent env e) := rfl
      rw [hstep]
      obtain ⟨ih1, ih2, ih3, ih4⟩ := ih (stepEvent env e)
      refine ⟨Nat.le_trans (stepEvent_errors_mono env e) ih1, ?_, ?_, ?_⟩
      · intro hp
        have hse := stepEvent_processed env e hp
        rw [hse] at ih2 ⊢
        exact ih2 hp
      · intro name t hp
        exact ih3 name t (stepEvent_hrProc env e name t hp)
      · intro name t hp
        exact ih4 name t (stepEvent_hrUnproc env e name t hp)

/-- C3.  When after handler dispatch at least one handler still lacks
`processed_at` and every such handler has `unprocessable_at` set, the same
attempt forces the error counter to `maxErrors` and persists the
terminal-failure state. -/
theorem claim_c3 (m : Nat) (b : Nat → Nat) (map : HandlerMap) (s : Nat → Bool)
    (now : Nat) (u : String × Nat) (ev : Event)
    (g : List (String × HandlerOutcome))
    (hs : s 0 = false) (hu : u.2 < m) (hp : ev.processed_at = none)
    (he : ev.errors < m) (hg : recordGet map ev.type_ = some g)
    (hsweep : allRemainingUnprocessable g
      (dispatch now g ev.handler_results false).results = true) :
    (processEvent m b none map s now u (some ev)).errored = true ∧
    (processEvent m b none map s now u (some ev)).updated.map
      (fun e => (e.errors, e.processed_at, e.backoff_until)) =
      some (m, some now, none) := by
  have hgate : processEvent m b none map s now u (some ev) =
      processLocked m b none map now ev := by
    unfold processEvent
    rw [if_neg (by simp [hs]), if_neg (not_le.mpr hu)]
  have hlock : processLocked m b none map now ev =
      finishEvent m b none now
        ((dispatch now g ev.handler_results false).errored || true)
        (dispatch now g ev.handler_results false).invoked
        { ev with
          handler_results := (dispatch now g ev.handler_results false).results,
          errors := m } := by
    simp only [processLocked]
    rw [if_neg (by simp [hp]), if_neg (not_le.mpr he), hg]
    simp only [Option.getD_some, Option.isSome_some, Bool.not_true]
    rw [hsweep]
    simp
  rw [hgate, hlock]
  have hmin : min (m + 1) m = m := Nat.min_eq_right (Nat.le_succ m)
  constructor
  · rw [finishEvent_errored]
    exact Bool.or_true _
  · unfold finishEvent
    rw [if_pos (Bool.or_true _)]
    simp [hmin]

/-- C5.  A locked event whose type has no entry at all in the handler map is
poisoned in a single attempt: no handler is invoked, the attempt is flagged
errored, and the persisted state has `errors = maxErrors`, `processed_at`
set, and `backoff_until` null. -/
theorem claim_c5 (m : Nat) (b : Nat → Nat) (map : HandlerMap) (s : Nat → Bool)
    (now : Nat) (u : String × Nat) (ev : Event)
    (hs : s 0 = false) (hu : u.2 < m) (hp : ev.processed_at = none)
    (he : ev.errors < m) (hg : recordGet map ev.type_ = none) :
    (processEvent m b none map s now u (some ev)).errored = true ∧
    (processEvent m b none map s now u (some ev)).invoked = [] ∧
    (processEvent m b none map s now u (some ev)).updated.map
      (fun e => (e.errors, e.processed_at, e.backoff_until)) =
      some (m, some now, none) := by
  have hgate : processEvent m b none map s now u (some ev) =
      processLocked m b none map now ev := by
    unfold processEvent
    rw [if_neg (by simp [hs]), if_neg (not_le.mpr hu)]
  rw [hgate]
  simp only [processLocked, hg]
  rw [if_neg (by simp [hp]), if_neg (not_le.mpr he)]
  have hmin : min (m + 1) m = m := Nat.min_eq_right (Nat.le_succ m)
  simp [dispatch, allRemainingUnprocessable, remainingHandlers, finishEvent, hmin]

/-- C6.  A locked event whose type maps to a present but empty handler group
invokes no handlers and is persisted as terminal success with its error
counter unchanged. -/
theorem claim_c6 (m : Nat) (b : Nat → Nat) (hook : Option Bool)
    (map : HandlerMap) (s : Nat → Bool) (now : Nat) (u : String × Nat)
    (ev : Event)
    (hs : s 0 = false) (hu : u.2 < m) (hp : ev.processed_at = none)
    (he : ev.errors < m) (hg : recordGet map ev.type_ = some []) :
    (processEvent m b hook map s now u (some ev)).invoked = [] ∧
    (processEvent m b hook map s now u (some ev)).updated =
      some { ev with backoff_until := none, processed_at := some now } := by
  have hgate : processEvent m b hook map s now u (some ev) =
      processLocked m b hook map now ev := by
    unfold processEvent
    rw [if_neg (by simp [hs]), if_neg (not_le.mpr hu)]
  rw [hgate]
  simp only [processLocked, hg]
  rw [if_neg (by simp [hp]), if_neg (not_le.mpr he)]
  simp [dispatch, allRemainingUnprocessable, remainingHandlers, finishEvent]

/-- C2.  Latest-wins backoff: an attempt of the latest-wins processor
generation that ends errored with the error counter still below `maxErrors`
persists as `backoff_until` the maximum of all collected backoff hints
together with the configured `backoff` of the new error count. -/
theorem claim_c2 (m : Nat) (b : Nat → Nat) (hook : Option Bool)
    (map : HandlerMap) (s : Nat → Bool) (now : Nat) (u : String × Nat)
    (ev e' : Event)
    (hup : (processEventHints m b hook map s now u (some ev)).updated = some e')
    (herr : (processEventHints m b hook map s now u (some ev)).errored = true)
    (hlt : e'.errors < m) :
    e'.backoff_until = some (nextBackoff (b e'.errors)
      (dispatchHints now ((recordGet map ev.type_).getD [])
        ev.handler_results (!(recordGet map ev.type_).isSome)).hints) := by
  unfold processEventHints at hup herr
  by_cases hsg : s 0 = true
  · rw [if_pos hsg] at hup
    simp [skipResult] at hup
  · rw [if_neg hsg] at hup herr
    by_cases hm : m ≤ u.2
    · rw [if_pos hm] at hup
      simp [skipResult] at hup
    · rw [if_neg hm] at hup herr
      simp only [processLockedHints] at hup herr
      by_cases hps : ev.processed_at.isSome = true
      · rw [if_pos hps] at hup
        simp [skipResult] at hup
      · rw [if_neg hps] at hup herr
        by_cases hme : m ≤ ev.errors
        · rw [if_pos hme] at hup
          simp [skipResult] at hup
        · rw [if_neg hme] at hup herr
          rw [finishEvent_errored] at herr
          obtain ⟨-, hcases⟩ := finishEvent_spec _ _ _ _ _ _ _ _ hup
          rcases hcases with ⟨hfalse, -⟩ | ⟨-, herrs, hrest⟩
          · rw [herr] at hfalse
            simp at hfalse
          · rcases hrest with ⟨hterm, -, -, -⟩ | ⟨-, hbk, -⟩
            · rw [herrs, hterm] at hlt
              exact absurd hlt (lt_irrefl m)
            · rw [herrs]
              exact hbk

/-- Witness for C1: a concrete terminal-failure attempt whose persisted
event has the counter at the ceiling, `processed_at` set and `backoff_until`
null. -/
theorem claim_c1_witness :
    outW1.errors ≤ 3 ∧ (outW1.processed_at.isSome ∧ outW1.backoff_until = none) :=
  ⟨(claim_c1 3 bW none mapW1 sW 7 ("e1", 2) (some evW) outW1 (by decide)).1,
    (claim_c1 3 bW none mapW1 sW 7 ("e1", 2) (some evW) outW1 (by decide)).2
      (by decide)⟩

/-- Witness for C2: two handlers fail with hints 10 and 20 and the default
backoff yields 6; the persisted instant is the maximum of the three. -/
theorem claim_c2_witness :
    outW2.backoff_until = some (nextBackoff (bW outW2.errors)
      (dispatchHints 7 ((recordGet mapW2 evW0.type_).getD [])
        evW0.handler_results (!(recordGet mapW2 evW0.type_).isSome)).hints) ∧
    outW2.backoff_until = some (max (max (bW 1) 10) 20) :=
  ⟨claim_c2 5 bW none mapW2 sW 7 ("e1", 0) evW0 outW2
      (by decide) (by decide) (by decide),
    by decide⟩

/-- Witness for C3: one handler succeeds and the other is unprocessable, so
the sweep fires and the attempt persists terminal failure at once. -/
theorem claim_c3_witness :
    (processEvent 3 bW none mapW3 sW 7 ("e1", 0) (some evW0)).errored = true ∧
    (processEvent 3 bW none mapW3 sW 7 ("e1", 0) (some evW0)).updated.map
      (fun e => (e.errors, e.processed_at, e.backoff_until)) =
      some (3, some 7, none) :=
  claim_c3 3 bW mapW3 sW 7 ("e1", 0) evW0 gW3
    (by decide) (by decide) (by decide) (by decide) (by decide) (by decide)

/-- Witness for C4: the handler named a already has `processed_at` in the
stored results and is not invoked. -/
theorem claim_c4_witness :
    hrDone evW4.handler_results "a" = true ∧
    "a" ∉ (processEvent 3 bW none mapW4 sW 7 ("e1", 0) (some evW4)).invoked :=
  ⟨by decide,
    claim_c4 3 bW none mapW4 sW 7 ("e1", 0) evW4 "a" (by decide)⟩

/-- Witness for C5: an empty handler map poisons the event in one attempt. -/
theorem claim_c5_witness :
    (processEvent 3 bW none [] sW 7 ("e1", 2) (some evW)).errored = true ∧
    (processEvent 3 bW none [] sW 7 ("e1", 2) (some evW)).invoked = [] ∧
    (processEvent 3 bW none [] sW 7 ("e1", 2) (some evW)).updated.map
      (fun e => (e.errors, e.processed_at, e.backoff_until)) =
      some (3, some 7, none) :=
  claim_c5 3 bW [] sW 7 ("e1", 2) evW
    (by decide) (by decide) (by decide) (by decide) (by decide)

/-- Witness for C6: a present but empty handler group completes the event
immediately with its error counter unchanged. -/
theorem claim_c6_witness :
    (processEvent 3 bW none mapW6 sW 7 ("e1", 2) (some evW)).invoked = [] ∧
    (processEvent 3 bW none mapW6 sW 7 ("e1", 2) (some evW)).updated =
      some { evW with backoff_until := none, processed_at := some 7 } :=
  claim_c6 3 bW none mapW6 sW 7 ("e1", 2) evW
    (by decide) (by decide) (by decide) (by decide) (by decide)

/-- Witness for C7: a throwing max-errors hook on a poisoned event is
logged, re-raised, and suppresses the update. -/
theorem claim_c7_witness :
    (processEvent 3 bW (some true) [] sW 7 ("e1", 2) (some evW)).hookErrorLogged = true ∧
    (processEvent 3 bW (some true) [] sW 7 ("e1", 2) (some evW)).raised = true ∧
    (processEvent 3 bW (some true) [] sW 7 ("e1", 2) (some evW)).updated = none :=
  claim_c7 3 bW [] sW 7 ("e1", 2) (some evW) (by decide)

/-- Witness for C8: one attempt on an event with a succeeded handler entry
and an unprocessable handler entry preserves both marks and does not lower
the counter; a terminal event is left untouched. -/
theorem claim_c8_witness :
    eW8.errors ≤ (runAttempts [envW8] eW8).errors ∧
    (recordGet (runAttempts [envW8] eW8).handler_results "a").bind
      (fun r => r.processed_at) = some 3 ∧
    (recordGet (runAttempts [envW8] eW8).handler_results "bb").bind
      (fun r => r.unprocessable_at) = some 4 ∧
    (runAttempts [envW8] eW8b).processed_at = eW8b.processed_at :=
  ⟨(claim_c8 [envW8] eW8).1,
    (claim_c8 [envW8] eW8).2.2.1 "a" 3 (by decide),
    (claim_c8 [envW8] eW8).2.2.2 "bb" 4 (by decide),
    (claim_c8 [envW8] eW8b).2.1 (by decide)⟩

/-- Witness for C9: a failing body with a failing rollback yields the
composite rejection whose cause is the original error. -/
theorem claim_c9_witness :
    "ROLLBACK" ∈ (transaction none (some eW9) none (some rbeW)).queries ∧
    (transaction none (some eW9) none (some rbeW)).outcome =
      some (rollbackComposite eW9 rbeW) ∧
    (rollbackComposite eW9 rbeW).causeOf = some eW9 :=
  ⟨(claim_c9 eW9 none (some rbeW)).1,
    ((claim_c9 eW9 none (some rbeW)).2 rbeW rfl).1,
    ((claim_c9 eW9 none (some rbeW)).2 rbeW rfl).2⟩

/-- Witness for C10: a trace that aborts only after the single check gives
the same attempt result as the never-aborted trace, and an abort at the
check point keeps the transaction closed. -/
theorem claim_c10_witness :
    processEvent 3 bW none mapW1 sW 7 ("e1", 2) (some evW) =
      processEvent 3 bW none mapW1 sW2 7 ("e1", 2) (some evW) ∧
    (processEvent 3 bW none mapW1 sTrueW 7 ("e1", 2) (some evW)).txOpened = false :=
  ⟨(claim_c10 3 bW none mapW1 sW sW2 7 ("e1", 2) (some evW) (by decide)).1,
    (claim_c10 3 bW none mapW1 sTrueW sTrueW 7 ("e1", 2) (some evW) rfl).2
      (by decide)⟩

end Txob
